import Mathlib

/-!
# ecom-go: bulk catalog lookup, checkout and product update handlers

A shallow embedding of the request handlers of `service/product/routes.go`,
`service/cart/routes.go` and of the SQL-backed catalog store of
`service/product/store.go`.

* Go strings are lists of Unicode code points (`GoString`).
* Go `int` is 64 bits wide; `strconv.Atoi` rejects values outside that range.
* A handler is a function from its inputs to the ordered list of effects it
  performs: the store calls it makes and the responses it writes.
* The `products` table is the list of its rows in the order in which the
  database scans them; a `SELECT` without `ORDER BY` yields the matching rows
  in that order.
-/

namespace EcomGo

/-! ## Strings: `strings.TrimSpace`, `strings.Split`, `strconv.Atoi`, `strings.Contains` -/

abbrev GoString := List Char

deriving instance DecidableEq for Except

/-- White space in the sense of Go's `unicode.IsSpace`. -/
def isSpace (c : Char) : Bool :=
  let n := c.toNat
  n == 0x09 || n == 0x0A || n == 0x0B || n == 0x0C || n == 0x0D || n == 0x20 ||
  n == 0x85 || n == 0xA0 || n == 0x1680 || (0x2000 ≤ n && n ≤ 0x200A) ||
  n == 0x2028 || n == 0x2029 || n == 0x202F || n == 0x205F || n == 0x3000

/-- Go's `strings.TrimSpace`: leading and trailing white space removed. -/
def TrimSpace (s : GoString) : GoString :=
  (s.dropWhile isSpace).rdropWhile isSpace

/-- Go's `strings.Split(s, ",")`: the pieces between the commas; always at least one piece. -/
def Split : GoString → List GoString
  | [] => [[]]
  | c :: cs =>
    if c = ',' then [] :: Split cs
    else
      match Split cs with
      | [] => [[c]]
      | t :: ts => (c :: t) :: ts

/-- Value of an ASCII decimal digit. -/
def digitVal (c : Char) : Option Nat :=
  if 48 ≤ c.toNat ∧ c.toNat ≤ 57 then some (c.toNat - 48) else none

/-- Accumulate decimal digits, most significant first; `none` on a non-digit. -/
def parseDigits : GoString → Nat → Option Nat
  | [], n => some n
  | c :: cs, n =>
    match digitVal c with
    | none => none
    | some d => parseDigits cs (n * 10 + d)

/-- Unsigned part of `Atoi`: at least one digit, digits only. -/
def parseUnsigned (ds : GoString) : Option Nat :=
  if ds = [] then none else parseDigits ds 0

/-- Go's `strconv.Atoi` on a 64-bit platform: an optional sign, one or more ASCII
decimal digits, and a value that fits `int`; `none` stands for `err != nil`. -/
def Atoi (s : GoString) : Option Int :=
  match s with
  | [] => none
  | c :: cs =>
    if c = '-' then
      match parseUnsigned cs with
      | none => none
      | some n => if n ≤ 2 ^ 63 then some (-(n : Int)) else none
    else if c = '+' then
      match parseUnsigned cs with
      | none => none
      | some n => if n < 2 ^ 63 then some (n : Int) else none
    else
      match parseUnsigned (c :: cs) with
      | none => none
      | some n => if n < 2 ^ 63 then some (n : Int) else none

/-- Whether `pat` is an initial segment of `s`. -/
def startsWith : GoString → GoString → Bool
  | [], _ => true
  | _ :: _, [] => false
  | p :: ps, c :: cs => p == c && startsWith ps cs

/-- Go's `strings.Contains(s, substr)`. -/
def Contains : GoString → GoString → Bool
  | [], substr => startsWith substr []
  | c :: cs, substr => startsWith substr (c :: cs) || Contains cs substr

/-- Go's `%d` verb on a natural number. -/
def fmtNat (n : Nat) : GoString := Nat.toDigits 10 n

/-- Go's `%d` verb on an `int`. -/
def fmtInt : Int → GoString
  | Int.ofNat n => fmtNat n
  | Int.negSucc n => '-' :: fmtNat (n + 1)

/-! ## Data model -/

/-- The `types.Product` record, with the fields `scanRowIntoProduct` fills. -/
structure Product where
  ID : Int
  Name : GoString
  Description : GoString
  Image : GoString
  Price : Int
  Quantity : Int
  CreatedAt : GoString
deriving DecidableEq, Repr

/-- The zero value `new(types.Product)`. -/
def Product.zero : Product :=
  { ID := 0, Name := [], Description := [], Image := [], Price := 0, Quantity := 0, CreatedAt := [] }

/-- Errors returned by the catalog store. -/
inductive StoreErr where
  /-- Go `fmt.Errorf("product not found")` -/
  | productNotFound
  /-- Go `fmt.Errorf("product with id %d not found", id)` -/
  | productWithIdNotFound (id : Int)
  /-- Go `fmt.Errorf("no product updated")` -/
  | noProductUpdated
  /-- An error of `database/sql` with its message. -/
  | db (msg : GoString)
deriving DecidableEq, Repr

/-- The text `err.Error()` of a store error. -/
def StoreErr.Error : StoreErr → GoString
  | .productNotFound => "product not found".toList
  | .productWithIdNotFound id => "product with id ".toList ++ fmtInt id ++ " not found".toList
  | .noProductUpdated => "no product updated".toList
  | .db msg => msg

/-- Errors that the handlers write with `utils.WriteError`. -/
inductive Err where
  /-- Go `fmt.Errorf("missing products IDs")` -/
  | missingProductsIDs
  /-- Go `fmt.Errorf("invalid product IDs: %q", p)` -/
  | invalidProductIDs (p : GoString)
  /-- Go `fmt.Errorf("no valid product IDs provided")` -/
  | noValidProductIDs
  /-- Go `fmt.Errorf("missing product ID")` -/
  | missingProductID
  /-- Go `fmt.Errorf("invalid product ID")` -/
  | invalidProductID
  /-- Go `fmt.Errorf("invalid payload %v", err)` -/
  | invalidPayload (detail : GoString)
  /-- Go `fmt.Errorf("payload ID %d does not match URL ID %d", payloadID, urlID)` -/
  | idMismatch (payloadID urlID : Int)
  /-- An error of `utils.ParseJSON`. -/
  | parse (msg : GoString)
  /-- An error of the catalog store, passed on unchanged. -/
  | store (e : StoreErr)
  /-- The assembler's `ProductNotFound(id)`. -/
  | productNotFound (id : Int)
  /-- The assembler's `InsufficientStock(id, requested, available)`. -/
  | insufficientStock (id requested available : Int)
  /-- The order store's `StorageFailure`, with its message. -/
  | storageFailure (msg : GoString)
  /-- Any other error value, by its message. -/
  | other (msg : GoString)
deriving DecidableEq, Repr

/-- HTTP status codes used by the handlers. -/
def StatusOK : Nat := 200
def StatusBadRequest : Nat := 400
def StatusInternalServerError : Nat := 500

/-! ## The catalog store (`service/product/store.go`) -/

/-- The database behind `Store`: the rows of `products` in scan order, and the error
every statement fails with when the connection is faulty. -/
structure DB where
  products : List Product
  fault : Option GoString
deriving DecidableEq, Repr

/-- Go `s.db.Query("SELECT * FROM products WHERE id = ?", id)` -/
def DB.queryByID (db : DB) (id : Int) : Except StoreErr (List Product) :=
  match db.fault with
  | some msg => .error (.db msg)
  | none => .ok (db.products.filter (fun p => p.ID == id))

/-- Go `s.db.Query("SELECT ... FROM products WHERE id IN (?,...,?)", ids...)`: no `ORDER BY`. -/
def DB.queryByIDs (db : DB) (ids : List Int) : Except StoreErr (List Product) :=
  match db.fault with
  | some msg => .error (.db msg)
  | none => .ok (db.products.filter (fun p => ids.contains p.ID))

/-- Go `Store.GetProductByID`: the last scanned row, or "product not found" when the
scanned product still has the zero id. -/
def Store.GetProductByID (db : DB) (id : Int) : Except StoreErr Product :=
  match db.queryByID id with
  | .error e => .error e
  | .ok rows =>
    let p := rows.foldl (fun _ row => row) Product.zero
    if p.ID = 0 then .error .productNotFound else .ok p

/-- Go `Store.GetProductsByID`: the rows the `IN` query yields, appended in scan order. -/
def Store.GetProductsByID (db : DB) (productsIDs : List Int) : Except StoreErr (List Product) :=
  if productsIDs.length = 0 then .ok []
  else
    match db.queryByIDs productsIDs with
    | .error e => .error e
    | .ok rows => .ok (rows.foldl (fun products p => products ++ [p]) [])

/-- The row an `UPDATE products SET name, description, image, price, quantity WHERE id`
statement leaves in place of `row`. -/
def updateRow (product row : Product) : Product :=
  if row.ID = product.ID then
    { row with Name := product.Name, Description := product.Description,
               Image := product.Image, Price := product.Price, Quantity := product.Quantity }
  else row

/-- Go `s.db.Exec("UPDATE products SET ... WHERE id = ?", ...)`: the new table and the
number of rows changed (what `RowsAffected` reports for MySQL). -/
def DB.execUpdate (db : DB) (product : Product) : Except StoreErr (DB × Nat) :=
  match db.fault with
  | some msg => .error (.db msg)
  | none =>
    .ok ({ db with products := db.products.map (updateRow product) },
         (db.products.filter (fun row => decide (updateRow product row ≠ row))).length)

/-- Go `Store.UpdateProduct`: the result and the database afterwards. -/
def Store.UpdateProduct (db : DB) (product : Product) : Except StoreErr Unit × DB :=
  match Store.GetProductByID db product.ID with
  | .error _ => (.error (.productWithIdNotFound product.ID), db)
  | .ok _ =>
    match db.execUpdate product with
    | .error e => (.error e, db)
    | .ok (db', rowsAffected) =>
      if rowsAffected = 0 then (.error .noProductUpdated, db') else (.ok (), db')

/-! ## Bulk lookup (`handleGetProductsByIds`) -/

/-- What a handler does, in order. -/
inductive Event where
  /-- Go `utils.WriteError(w, status, err)` -/
  | writeError (status : Nat) (err : Err)
  /-- Go `utils.WriteJSON(w, status, products)` with a product list -/
  | writeProducts (status : Nat) (products : List Product)
  /-- Go `utils.WriteJSON(w, status, product)` with one product -/
  | writeProduct (status : Nat) (product : Product)
  /-- Go `h.store.GetProductsByID(ids)` -/
  | callGetProductsByID (ids : List Int)
  /-- Go `h.store.UpdateProduct(product)` -/
  | callUpdateProduct (product : Product)
  /-- Go `h.store.GetProductByID(id)` -/
  | callGetProductByID (id : Int)
deriving DecidableEq, Repr

/-- Whether an event writes a response. -/
def Event.isResponse : Event → Bool
  | .writeError _ _ => true
  | .writeProducts _ _ => true
  | .writeProduct _ _ => true
  | _ => false

/-- The loop of `handleGetProductsByIds` (lines 82-101) over the remaining `parts`, with
the identifiers collected so far and the set of values seen; `.error p` is the early
return on the token `p` that `Atoi` rejects. -/
def idsLoop : List GoString → List Int → List Int → Except GoString (List Int)
  | [], ids, _ => .ok ids
  | part :: rest, ids, seen =>
    let p := TrimSpace part
    if p = [] then idsLoop rest ids seen
    else
      match Atoi p with
      | none => .error p
      | some id =>
        if seen.contains id then idsLoop rest ids seen
        else idsLoop rest (ids ++ [id]) (id :: seen)

/-- Go `handleGetProductsByIds` after the first check (lines 78-116). -/
def handleGetProductsByIdsRest (store : List Int → Except StoreErr (List Product))
    (idsStr : GoString) : List Event :=
  match idsLoop (Split idsStr) [] [] with
  | .error p => [.writeError StatusBadRequest (.invalidProductIDs p)]
  | .ok ids =>
    if ids.length = 0 then [.writeError StatusBadRequest .noValidProductIDs]
    else
      match store ids with
      | .error e => [.callGetProductsByID ids, .writeError StatusInternalServerError (.store e)]
      | .ok products => [.callGetProductsByID ids, .writeProducts StatusOK products]

/-- Go `Handler.handleGetProductsByIds`: `vars` is `mux.Vars(r)["ids"]` (`none` when the
variable is missing, in which case `idsStr` is the empty string); the first check
writes its error and falls through, there being no `return` in its body. -/
def handleGetProductsByIds (store : List Int → Except StoreErr (List Product))
    (vars : Option GoString) : List Event :=
  let idsStr := vars.getD []
  let ok := vars.isSome
  (if !ok || TrimSpace idsStr = [] then [.writeError StatusBadRequest .missingProductsIDs] else [])
    ++ handleGetProductsByIdsRest store idsStr

/-- The identifier lists a handler passed to `GetProductsByID`, in call order. -/
def storeCalls : List Event → List (List Int)
  | [] => []
  | .callGetProductsByID ids :: es => ids :: storeCalls es
  | _ :: es => storeCalls es

/-- The tokens of an identifier string that are non-empty after trimming. -/
def tokens (s : GoString) : List GoString :=
  ((Split s).map TrimSpace).filter (fun p => decide (p ≠ []))

/-- The parsed values of the tokens of an identifier string, in input order. -/
def parsedValues (s : GoString) : List Int :=
  (tokens s).filterMap Atoi

/-! ## Product update (`HandleUpdateProduct`) -/

/-- The part of `types.ProductStore` that `HandleUpdateProduct` uses, over a store state. -/
structure ProductStore (σ : Type) where
  GetProductByID : σ → Int → Except StoreErr Product
  UpdateProduct : σ → Product → Except StoreErr Unit × σ

/-- The SQL-backed `Store` of `store.go` as a `ProductStore`. -/
def sqlStore : ProductStore DB :=
  { GetProductByID := Store.GetProductByID, UpdateProduct := Store.UpdateProduct }

/-- The `mockProductStore` of `route_test.go`: every call succeeds. -/
def mockProductStore : ProductStore Unit :=
  { GetProductByID := fun _ _ => .ok Product.zero, UpdateProduct := fun _ _ => (.ok (), ()) }

/-- Go `Handler.HandleUpdateProduct`: `vars` is `mux.Vars(r)["id"]`, `body` the outcome of
`utils.ParseJSON(r, &product)`, `validate` the outcome of `utils.Validate.Struct`
(`some` for a validation error). Returns the effects and the store afterwards. -/
def HandleUpdateProduct {σ : Type} (store : ProductStore σ) (validate : Product → Option GoString)
    (s : σ) (vars : Option GoString) (body : Except Err Product) : List Event × σ :=
  let idStr := vars.getD []
  if !vars.isSome || TrimSpace idStr = [] then
    ([.writeError StatusBadRequest .missingProductID], s)
  else
    match Atoi idStr with
    | none => ([.writeError StatusBadRequest .invalidProductID], s)
    | some id =>
      match body with
      | .error e => ([.writeError StatusBadRequest e], s)
      | .ok product =>
        match validate product with
        | some errors => ([.writeError StatusBadRequest (.invalidPayload errors)], s)
        | none =>
          if product.ID ≠ 0 ∧ product.ID ≠ id then
            ([.writeError StatusBadRequest (.idMismatch product.ID id)], s)
          else
            match store.UpdateProduct s product with
            | (.error err, s') =>
              if Contains err.Error "not found!".toList then
                ([.callUpdateProduct product, .writeError StatusBadRequest (.store err)], s')
              else
                ([.callUpdateProduct product,
                  .writeError StatusInternalServerError (.store err)], s')
            | (.ok _, s') =>
              match store.GetProductByID s' id with
              | .error err =>
                ([.callUpdateProduct product, .callGetProductByID id,
                  .writeError StatusInternalServerError (.store err)], s')
              | .ok updateProduct =>
                ([.callUpdateProduct product, .callGetProductByID id,
                  .writeProduct StatusOK updateProduct], s')

/-! ## Checkout (`handleCheckout`) -/

/-- One line of `types.CartCheckoutPayload.Items`. -/
structure CartCheckoutItem where
  ProductID : Int
  Quantity : Int
deriving DecidableEq, Repr

/-- The checkout request body. -/
structure CartCheckoutPayload where
  Items : List CartCheckoutItem
deriving DecidableEq, Repr

/-- What `handleCheckout` does, in order. -/
inductive CheckoutEvent where
  /-- Go `utils.WriteError(w, status, err)` -/
  | writeError (status : Nat) (err : Err)
  /-- Go `utils.WriteJSON(w, status, {"total_price": totalPrice, "order_id": orderID})` -/
  | writeOrder (status : Nat) (totalPrice : Int) (orderID : Int)
  /-- Go `h.store.GetProductsByID(productIds)` -/
  | callGetProductsByID (ids : List Int)
  /-- Go `h.createOrder(products, cart.Items, userID)` -/
  | callCreateOrder (products : List Product) (items : List CartCheckoutItem) (userID : Int)
deriving DecidableEq, Repr

/-- Whether an event is a call of `h.createOrder`. -/
def CheckoutEvent.isCreateOrder : CheckoutEvent → Bool
  | .callCreateOrder _ _ _ => true
  | _ => false

/-- Whether an event writes a response. -/
def CheckoutEvent.isResponse : CheckoutEvent → Bool
  | .writeError _ _ => true
  | .writeOrder _ _ _ => true
  | _ => false

/-- The collaborators of `handleCheckout` over a state `σ` of the stores:
`utils.Validate.Struct` (`some` for a validation error), `getCartItemsIDs`,
the catalog's `GetProductsByID` (a read) and `h.createOrder` (the step that writes). -/
structure CheckoutDeps (σ : Type) where
  validate : CartCheckoutPayload → Option GoString
  getCartItemsIDs : List CartCheckoutItem → Except Err (List Int)
  GetProductsByID : σ → List Int → Except StoreErr (List Product)
  createOrder : σ → List Product → List CartCheckoutItem → Int → Except Err (Int × Int) × σ

/-- Go `Handler.handleCheckout`: `userID` is `auth.GetUserIDFromContext`, `body` the outcome
of `utils.ParseJSON(r, &cart)`. Returns the effects and the stores afterwards. -/
def handleCheckout {σ : Type} (deps : CheckoutDeps σ) (s : σ) (userID : Int)
    (body : Except Err CartCheckoutPayload) : List CheckoutEvent × σ :=
  match body with
  | .error err => ([.writeError StatusBadRequest err], s)
  | .ok cart =>
    match deps.validate cart with
    | some err => ([.writeError StatusBadRequest (.invalidPayload err)], s)
    | none =>
      match deps.getCartItemsIDs cart.Items with
      | .error err => ([.writeError StatusBadRequest err], s)
      | .ok productIds =>
        match deps.GetProductsByID s productIds with
        | .error err =>
          ([.callGetProductsByID productIds,
            .writeError StatusInternalServerError (.store err)], s)
        | .ok prodcuts =>
          match deps.createOrder s prodcuts cart.Items userID with
          | (.error err, s') =>
            ([.callGetProductsByID productIds, .callCreateOrder prodcuts cart.Items userID,
              .writeError StatusBadRequest err], s')
          | (.ok (orderID, totalPrice), s') =>
            ([.callGetProductsByID productIds, .callCreateOrder prodcuts cart.Items userID,
              .writeOrder StatusOK totalPrice orderID], s')

/-- The four steps before `createOrder` all succeed. -/
def stepsSucceed {σ : Type} (deps : CheckoutDeps σ) (s : σ)
    (body : Except Err CartCheckoutPayload) : Prop :=
  ∃ cart ids products, body = .ok cart ∧ deps.validate cart = none ∧
    deps.getCartItemsIDs cart.Items = .ok ids ∧ deps.GetProductsByID s ids = .ok products

/-! ## Order assembly and persistence, from the specification

`getCartItemsIDs`, `createOrder` and the order store are not among the sources; the
definitions below follow sections 4.2 and 4.3 of the specification. -/

/-- A cart line after price resolution. -/
structure ResolvedLine where
  ProductID : Int
  UnitPrice : Int
  Quantity : Int
deriving DecidableEq, Repr

/-- An assembled order. -/
structure Order where
  UserID : Int
  Lines : List ResolvedLine
  Total : Int
deriving DecidableEq, Repr

/-- The order store over its state: persisting an order yields its identifier or fails. -/
structure OrderStore (τ : Type) where
  CreateOrder : τ → Order → Except GoString Int × τ

/-- Modelled from the spec: the payload validation of the Checkout Orchestrator (4.3 step 1;
the validation tags of `types.CartCheckoutPayload` are missing): at least one line item,
each with a positive product identifier and a positive quantity. -/
def specValidate (cart : CartCheckoutPayload) : Option GoString :=
  if cart.Items ≠ [] ∧ ∀ item ∈ cart.Items, 0 < item.ProductID ∧ 0 < item.Quantity then none
  else some "InvalidPayload".toList

/-- Modelled from the spec: `getCartItemsIDs` (missing from the sources) extracts the
distinct product identifiers referenced, in order of first appearance (4.3 step 2). -/
def specGetCartItemsIDs (items : List CartCheckoutItem) : Except Err (List Int) :=
  .ok (items.foldl (fun ids item => if ids.contains item.ProductID then ids
                                    else ids ++ [item.ProductID]) [])

/-- Modelled from the spec: the mapping from product identifier to product that the
Order Assembler builds from the resolved records (4.2 step 1; `createOrder` is missing). -/
def productsMap (products : List Product) : Int → Option Product :=
  products.foldl (fun m p => fun k => if k = p.ID then some p else m k) (fun _ => none)

/-- Modelled from the spec: the per-line resolution of the Order Assembler (4.2 step 2;
`createOrder` is missing): an absent product aborts with `ProductNotFound`, a request
above the stock on hand with `InsufficientStock`. -/
def resolveLines (m : Int → Option Product) : List CartCheckoutItem → Except Err (List ResolvedLine)
  | [] => .ok []
  | item :: rest =>
    match m item.ProductID with
    | none => .error (.productNotFound item.ProductID)
    | some p =>
      if item.Quantity > p.Quantity then
        .error (.insufficientStock item.ProductID item.Quantity p.Quantity)
      else
        match resolveLines m rest with
        | .error e => .error e
        | .ok lines =>
          .ok ({ ProductID := item.ProductID, UnitPrice := p.Price,
                 Quantity := item.Quantity } :: lines)

/-- Modelled from the spec: the Order Assembler (4.2; `createOrder` is missing): the
total is the sum of the subtotals unit price × quantity, in integer arithmetic. -/
def assembleOrder (userID : Int) (items : List CartCheckoutItem) (products : List Product) :
    Except Err Order :=
  match resolveLines (productsMap products) items with
  | .error e => .error e
  | .ok lines =>
    .ok { UserID := userID, Lines := lines,
          Total := lines.foldl (fun total l => total + l.UnitPrice * l.Quantity) 0 }

/-- Modelled from the spec: `createOrder` (missing from the sources) assembles the order
and persists it through the order store, returning the order identifier and the total
price (4.3 steps 3-5); the state is the catalog database and the order store's state. -/
def specCreateOrder {τ : Type} (orders : OrderStore τ) (s : DB × τ) (products : List Product)
    (items : List CartCheckoutItem) (userID : Int) : Except Err (Int × Int) × (DB × τ) :=
  match assembleOrder userID items products with
  | .error e => (.error e, s)
  | .ok order =>
    match orders.CreateOrder s.2 order with
    | (.error msg, t') => (.error (.storageFailure msg), (s.1, t'))
    | (.ok orderID, t') => (.ok (orderID, order.Total), (s.1, t'))

/-- The checkout collaborators: the SQL catalog store of `store.go` and the parts
modelled from the specification. -/
def specDeps {τ : Type} (orders : OrderStore τ) : CheckoutDeps (DB × τ) :=
  { validate := specValidate
    getCartItemsIDs := specGetCartItemsIDs
    GetProductsByID := fun s ids => Store.GetProductsByID s.1 ids
    createOrder := specCreateOrder orders }

/-- An order store that assigns consecutive identifiers and keeps the orders. -/
def listOrderStore : OrderStore (List Order) :=
  { CreateOrder := fun os o => (.ok (os.length + 1 : Int), os ++ [o]) }

/-! ## Example data -/

/-- A catalog row with the given identifier, price and stock. -/
def mkProduct (id price quantity : Int) : Product :=
  { ID := id, Name := "item".toList, Description := [], Image := [],
    Price := price, Quantity := quantity, CreatedAt := [] }

/-- A healthy catalog with the products 1 and 2, stored in that order. -/
def exampleDB : DB :=
  { products := [mkProduct 1 1000 10, mkProduct 2 2500 10], fault := none }

/-- A healthy catalog with the products 5 and 7 of the specification's scenario. -/
def scenarioDB : DB :=
  { products := [mkProduct 5 1000 10, mkProduct 7 2500 10], fault := none }

/-- The update payload of `route_test.go`: no id. -/
def testUpdatePayload : Product :=
  { ID := 0, Name := "test".toList, Description := "test desccc".toList,
    Image := "imageee.test".toList, Price := 20000, Quantity := 1, CreatedAt := [] }


/-- Checkout collaborators whose order creation fails with a storage failure: every
payload is valid, the identifiers are those of the items, the catalog is `scenarioDB`. -/
def storageFailureDeps : CheckoutDeps Unit :=
  { validate := fun _ => none
    getCartItemsIDs := fun items => .ok (items.map (fun item => item.ProductID))
    GetProductsByID := fun _ ids => Store.GetProductsByID scenarioDB ids
    createOrder := fun s _ _ _ => (.error (.storageFailure "connection refused".toList), s) }

/-! ## Vocabulary of the loop invariant -/

/-- The invariant of the loop: `ids` is the first-occurrence deduplication of `done`. -/
def FirstSeen (ids done : List Int) : Prop :=
  ids.Nodup ∧ (∀ v, v ∈ ids ↔ v ∈ done) ∧
    ∀ a b, a ∈ done → b ∈ done → (ids.indexOf a < ids.indexOf b ↔ done.indexOf a < done.indexOf b)

/-- The values the loop parses from a list of parts. -/
def partValues (parts : List GoString) : List Int :=
  ((parts.map TrimSpace).filter (fun p => decide (p ≠ []))).filterMap Atoi

/-! # Theorems -/

/-! ## Lemmas on the string functions -/

theorem isSpace_comma : isSpace ',' = false := by decide

theorem TrimSpace_eq_nil_iff (s : GoString) : TrimSpace s = [] ↔ ∀ c ∈ s, isSpace c = true := by
  unfold TrimSpace
  constructor
  · intro h
    have h2 : ∀ x ∈ s.dropWhile isSpace, isSpace x = true := List.rdropWhile_eq_nil_iff.mp h
    have h3 : s.dropWhile isSpace = [] := by
      by_contra hne
      have hh := List.head_dropWhile_not isSpace s hne
      have hm := h2 _ (List.head_mem hne)
      rw [hm] at hh
      exact absurd hh (by decide)
    exact List.dropWhile_eq_nil_iff.mp h3
  · intro h
    have h3 : s.dropWhile isSpace = [] := List.dropWhile_eq_nil_iff.mpr h
    rw [h3]
    rfl

theorem Split_of_all_space (s : GoString) (h : ∀ c ∈ s, isSpace c = true) : Split s = [s] := by
  induction s with
  | nil => rfl
  | cons c cs ih =>
    have hc : c ≠ ',' := by
      intro hc
      have := h c (List.mem_cons_self _ _)
      rw [hc, isSpace_comma] at this
      exact absurd this (by decide)
    have ih2 := ih (fun x hx => h x (List.mem_cons_of_mem _ hx))
    simp [Split, hc, ih2]

theorem tokens_eq_nil_of_TrimSpace (s : GoString) (h : TrimSpace s = []) : tokens s = [] := by
  have hs := (TrimSpace_eq_nil_iff s).mp h
  simp [tokens, Split_of_all_space s hs, h]

/-! ## Lemmas on the identifier loop -/

theorem FirstSeen_nil : FirstSeen [] [] := by
  refine ⟨List.nodup_nil, fun v => Iff.rfl, ?_⟩
  intro a b ha
  simp at ha

theorem FirstSeen_skip {ids done : List Int} {v : Int} (h : FirstSeen ids done) (hv : v ∈ ids) :
    FirstSeen ids (done ++ [v]) := by
  obtain ⟨hnd, hmem, hord⟩ := h
  have hvd : v ∈ done := (hmem v).mp hv
  refine ⟨hnd, ?_, ?_⟩
  · intro w
    rw [hmem w]
    simp only [List.mem_append, List.mem_singleton]
    constructor
    · exact Or.inl
    · rintro (h | h)
      · exact h
      · exact h ▸ hvd
  · intro a b ha hb
    have ha2 : a ∈ done := by
      rcases List.mem_append.mp ha with h | h
      · exact h
      · rw [List.mem_singleton.mp h]; exact hvd
    have hb2 : b ∈ done := by
      rcases List.mem_append.mp hb with h | h
      · exact h
      · rw [List.mem_singleton.mp h]; exact hvd
    rw [List.indexOf_append_of_mem ha2, List.indexOf_append_of_mem hb2]
    exact hord a b ha2 hb2

theorem FirstSeen_push {ids done : List Int} {v : Int} (h : FirstSeen ids done) (hv : v ∉ ids) :
    FirstSeen (ids ++ [v]) (done ++ [v]) := by
  obtain ⟨hnd, hmem, hord⟩ := h
  have hvd : v ∉ done := fun hh => hv ((hmem v).mpr hh)
  have idxI : ∀ x, x ∈ done →
      (ids ++ [v]).indexOf x = ids.indexOf x ∧ ids.indexOf x < ids.length := by
    intro x hx
    have hx2 : x ∈ ids := (hmem x).mpr hx
    exact ⟨List.indexOf_append_of_mem hx2, List.indexOf_lt_length.mpr hx2⟩
  have idxD : ∀ x, x ∈ done →
      (done ++ [v]).indexOf x = done.indexOf x ∧ done.indexOf x < done.length := by
    intro x hx
    exact ⟨List.indexOf_append_of_mem hx, List.indexOf_lt_length.mpr hx⟩
  have idxIv : (ids ++ [v]).indexOf v = ids.length := by
    rw [List.indexOf_append_of_not_mem hv]; simp
  have idxDv : (done ++ [v]).indexOf v = done.length := by
    rw [List.indexOf_append_of_not_mem hvd]; simp
  refine ⟨?_, ?_, ?_⟩
  · rw [List.nodup_append]
    refine ⟨hnd, List.nodup_singleton v, ?_⟩
    intro x hx hx2
    rw [List.mem_singleton] at hx2
    exact hv (hx2 ▸ hx)
  · intro w
    simp only [List.mem_append, List.mem_singleton, hmem w]
  · intro a b ha hb
    rcases List.mem_append.mp ha with ha2 | ha2 <;> rcases List.mem_append.mp hb with hb2 | hb2
    · rw [(idxI a ha2).1, (idxI b hb2).1, (idxD a ha2).1, (idxD b hb2).1]
      exact hord a b ha2 hb2
    · rw [List.mem_singleton] at hb2
      subst hb2
      rw [(idxI a ha2).1, (idxD a ha2).1, idxIv, idxDv]
      exact ⟨fun _ => (idxD a ha2).2, fun _ => (idxI a ha2).2⟩
    · rw [List.mem_singleton] at ha2
      subst ha2
      rw [(idxI b hb2).1, (idxD b hb2).1, idxIv, idxDv]
      have h1 := (idxI b hb2).2
      have h2 := (idxD b hb2).2
      constructor
      · intro hlt; omega
      · intro hlt; omega
    · rw [List.mem_singleton] at ha2 hb2
      subst ha2; subst hb2
      simp

theorem nonEmpty_cons_of_nil (part : GoString) (rest : List GoString) (hp : TrimSpace part = []) :
    ((part :: rest).map TrimSpace).filter (fun p => decide (p ≠ [])) =
      (rest.map TrimSpace).filter (fun p => decide (p ≠ [])) := by
  simp [List.filter_cons, hp]

theorem nonEmpty_cons_of_ne (part : GoString) (rest : List GoString) (hp : TrimSpace part ≠ []) :
    ((part :: rest).map TrimSpace).filter (fun p => decide (p ≠ [])) =
      TrimSpace part :: (rest.map TrimSpace).filter (fun p => decide (p ≠ [])) := by
  simp [List.filter_cons, hp]

theorem idsLoop_cons_empty (part : GoString) (rest : List GoString) (ids seen : List Int)
    (hp : TrimSpace part = []) : idsLoop (part :: rest) ids seen = idsLoop rest ids seen := by
  simp [idsLoop, hp]

theorem idsLoop_cons_bad (part : GoString) (rest : List GoString) (ids seen : List Int)
    (hp : TrimSpace part ≠ []) (hA : Atoi (TrimSpace part) = none) :
    idsLoop (part :: rest) ids seen = .error (TrimSpace part) := by
  simp [idsLoop, hp, hA]

theorem idsLoop_cons_dup (part : GoString) (rest : List GoString) (ids seen : List Int) (id : Int)
    (hp : TrimSpace part ≠ []) (hA : Atoi (TrimSpace part) = some id) (hdup : id ∈ seen) :
    idsLoop (part :: rest) ids seen = idsLoop rest ids seen := by
  simp [idsLoop, hp, hA, hdup]

theorem idsLoop_cons_new (part : GoString) (rest : List GoString) (ids seen : List Int) (id : Int)
    (hp : TrimSpace part ≠ []) (hA : Atoi (TrimSpace part) = some id) (hnew : id ∉ seen) :
    idsLoop (part :: rest) ids seen = idsLoop rest (ids ++ [id]) (id :: seen) := by
  simp [idsLoop, hp, hA, hnew]

theorem idsLoop_ok (parts : List GoString) :
    ∀ (ids seen done : List Int),
      (∀ t ∈ (parts.map TrimSpace).filter (fun p => decide (p ≠ [])), (Atoi t).isSome = true) →
      (∀ v, v ∈ seen ↔ v ∈ ids) → FirstSeen ids done →
      ∃ ids', idsLoop parts ids seen = .ok ids' ∧ FirstSeen ids' (done ++ partValues parts) := by
  induction parts with
  | nil =>
    intro ids seen done _ _ hinv
    exact ⟨ids, rfl, by simpa [partValues] using hinv⟩
  | cons part rest ih =>
    intro ids seen done hparse hseen hinv
    by_cases hp : TrimSpace part = []
    · rw [nonEmpty_cons_of_nil part rest hp] at hparse
      obtain ⟨ids', h1, h2⟩ := ih ids seen done hparse hseen hinv
      refine ⟨ids', ?_, ?_⟩
      · rw [idsLoop_cons_empty part rest ids seen hp]; exact h1
      · have : partValues (part :: rest) = partValues rest := by
          unfold partValues
          rw [nonEmpty_cons_of_nil part rest hp]
        rw [this]; exact h2
    · rw [nonEmpty_cons_of_ne part rest hp] at hparse
      have hrest : ∀ t ∈ (rest.map TrimSpace).filter (fun p => decide (p ≠ [])),
          (Atoi t).isSome = true := fun t ht => hparse t (List.mem_cons_of_mem _ ht)
      have hsome : (Atoi (TrimSpace part)).isSome = true := hparse _ (List.mem_cons_self _ _)
      obtain ⟨id, hid⟩ := Option.isSome_iff_exists.mp hsome
      have hvals : partValues (part :: rest) = id :: partValues rest := by
        unfold partValues
        rw [nonEmpty_cons_of_ne part rest hp, List.filterMap_cons, hid]
      by_cases hdup : id ∈ seen
      · obtain ⟨ids', h1, h2⟩ := ih ids seen (done ++ [id]) hrest hseen
          (FirstSeen_skip hinv ((hseen id).mp hdup))
        refine ⟨ids', ?_, ?_⟩
        · rw [idsLoop_cons_dup part rest ids seen id hp hid hdup]; exact h1
        · rw [hvals]; simpa using h2
      · have hseen2 : ∀ v, v ∈ id :: seen ↔ v ∈ ids ++ [id] := by
          intro v
          rw [List.mem_cons, List.mem_append, List.mem_singleton, hseen v]
          exact Or.comm
        obtain ⟨ids', h1, h2⟩ := ih (ids ++ [id]) (id :: seen) (done ++ [id]) hrest hseen2
          (FirstSeen_push hinv (fun hh => hdup ((hseen id).mpr hh)))
        refine ⟨ids', ?_, ?_⟩
        · rw [idsLoop_cons_new part rest ids seen id hp hid hdup]; exact h1
        · rw [hvals]; simpa using h2

theorem idsLoop_error (parts : List GoString) :
    ∀ (ids seen : List Int) (t0 : GoString),
      ((parts.map TrimSpace).filter (fun p => decide (p ≠ []))).find?
          (fun t => (Atoi t).isNone) = some t0 →
      idsLoop parts ids seen = .error t0 := by
  induction parts with
  | nil => intro ids seen t0 h; simp at h
  | cons part rest ih =>
    intro ids seen t0 h
    by_cases hp : TrimSpace part = []
    · rw [nonEmpty_cons_of_nil part rest hp] at h
      rw [idsLoop_cons_empty part rest ids seen hp]
      exact ih ids seen t0 h
    · rw [nonEmpty_cons_of_ne part rest hp, List.find?_cons] at h
      cases hA : Atoi (TrimSpace part) with
      | none =>
        rw [hA] at h
        simp only [Option.isNone_none] at h
        injection h with h
        rw [idsLoop_cons_bad part rest ids seen hp hA, h]
      | some id =>
        rw [hA] at h
        simp only [Option.isNone_some] at h
        by_cases hdup : id ∈ seen
        · rw [idsLoop_cons_dup part rest ids seen id hp hA hdup]
          exact ih _ _ t0 h
        · rw [idsLoop_cons_new part rest ids seen id hp hA hdup]
          exact ih _ _ t0 h

theorem idsLoop_nil_of_tokens (parts : List GoString) :
    ∀ (ids seen : List Int),
      (parts.map TrimSpace).filter (fun p => decide (p ≠ [])) = [] →
      idsLoop parts ids seen = .ok ids := by
  induction parts with
  | nil => intro ids seen _; rfl
  | cons part rest ih =>
    intro ids seen h
    by_cases hp : TrimSpace part = []
    · rw [nonEmpty_cons_of_nil part rest hp] at h
      rw [idsLoop_cons_empty part rest ids seen hp]
      exact ih ids seen h
    · rw [nonEmpty_cons_of_ne part rest hp] at h
      exact absurd h (List.cons_ne_nil _ _)

theorem storeCalls_append (xs ys : List Event) :
    storeCalls (xs ++ ys) = storeCalls xs ++ storeCalls ys := by
  induction xs with
  | nil => rfl
  | cons e es ih => cases e <;> simp [storeCalls, ih]

theorem partValues_Split (s : GoString) : partValues (Split s) = parsedValues s := rfl

/-! ## Bulk lookup: the claims -/

/-- C1: when every token that is non-empty after trimming parses, the loop of
`handleGetProductsByIds` yields the parsed values with later repeats removed (no
duplicates, exactly the values of the input, ordered by first occurrence), and that list
is the one and only list passed to the catalog store (no call when there is no value). -/
theorem C1_ids_are_first_occurrences (store : List Int → Except StoreErr (List Product))
    (s : GoString) (hparse : ∀ t ∈ tokens s, (Atoi t).isSome = true) :
    ∃ ids, idsLoop (Split s) [] [] = .ok ids ∧
      ids.Nodup ∧ (∀ v, v ∈ ids ↔ v ∈ parsedValues s) ∧
      (∀ a b, a ∈ parsedValues s → b ∈ parsedValues s →
        (ids.indexOf a < ids.indexOf b ↔
          (parsedValues s).indexOf a < (parsedValues s).indexOf b)) ∧
      storeCalls (handleGetProductsByIds store (some s)) =
        if parsedValues s = [] then [] else [ids] := by
  obtain ⟨ids, hloop, hinv⟩ :=
    idsLoop_ok (Split s) [] [] [] hparse (fun v => Iff.rfl) FirstSeen_nil
  rw [List.nil_append, partValues_Split] at hinv
  obtain ⟨hnd, hmem, hord⟩ := hinv
  refine ⟨ids, hloop, hnd, hmem, hord, ?_⟩
  have hrest : storeCalls (handleGetProductsByIdsRest store s) =
      if parsedValues s = [] then [] else [ids] := by
    unfold handleGetProductsByIdsRest
    rw [hloop]
    by_cases hv : parsedValues s = []
    · have hids : ids = [] := by
        apply List.eq_nil_iff_forall_not_mem.mpr
        intro v hvm
        have := (hmem v).mp hvm
        rw [hv] at this
        exact absurd this (List.not_mem_nil v)
      simp [hv, hids, storeCalls]
    · have hids : ids ≠ [] := by
        intro h
        apply hv
        apply List.eq_nil_iff_forall_not_mem.mpr
        intro v hvm
        have := (hmem v).mpr hvm
        rw [h] at this
        exact absurd this (List.not_mem_nil v)
      have hlen : ¬ ids.length = 0 := fun h => hids (List.length_eq_zero.mp h)
      simp only [hlen, if_false, hv]
      cases store ids <;> simp [storeCalls]
  unfold handleGetProductsByIds
  simp only [Option.getD_some, storeCalls_append, hrest]
  split <;> simp [storeCalls]

/-- C1 at the input "3,1,3,2," of the specification: the store receives `[3, 1, 2]`. -/
theorem C1_ids_are_first_occurrences_witness :
    ∃ ids, idsLoop (Split "3,1,3,2,".toList) [] [] = .ok ids ∧
      ids.Nodup ∧ (∀ v, v ∈ ids ↔ v ∈ parsedValues "3,1,3,2,".toList) ∧
      (∀ a b, a ∈ parsedValues "3,1,3,2,".toList → b ∈ parsedValues "3,1,3,2,".toList →
        (ids.indexOf a < ids.indexOf b ↔
          (parsedValues "3,1,3,2,".toList).indexOf a <
            (parsedValues "3,1,3,2,".toList).indexOf b)) ∧
      storeCalls (handleGetProductsByIds (Store.GetProductsByID exampleDB)
          (some "3,1,3,2,".toList)) =
        if parsedValues "3,1,3,2,".toList = [] then [] else [ids] :=
  C1_ids_are_first_occurrences (Store.GetProductsByID exampleDB) "3,1,3,2,".toList (by decide)

/-- C3: when some token that is non-empty after trimming does not parse, with `t0` the
leftmost such token, `handleGetProductsByIds` writes exactly one response, the 400
invalid-identifier error naming `t0`, and makes no store call. -/
theorem C3_invalid_token_aborts (store : List Int → Except StoreErr (List Product))
    (s t0 : GoString)
    (hbad : (tokens s).find? (fun t => (Atoi t).isNone) = some t0) :
    handleGetProductsByIds store (some s) =
      [.writeError StatusBadRequest (.invalidProductIDs t0)] := by
  have hne : TrimSpace s ≠ [] := by
    intro h
    rw [tokens_eq_nil_of_TrimSpace s h] at hbad
    simp at hbad
  have hloop := idsLoop_error (Split s) [] [] t0 hbad
  unfold handleGetProductsByIds handleGetProductsByIdsRest
  simp [hne, hloop]

/-- C3 at the input "1,2,x,4" of the specification. -/
theorem C3_invalid_token_aborts_witness :
    (tokens "1,2,x,4".toList).find? (fun t => (Atoi t).isNone) = some "x".toList ∧
    handleGetProductsByIds (Store.GetProductsByID exampleDB) (some "1,2,x,4".toList) =
      [.writeError StatusBadRequest (.invalidProductIDs "x".toList)] :=
  ⟨by decide,
   C3_invalid_token_aborts (Store.GetProductsByID exampleDB) "1,2,x,4".toList "x".toList
     (by decide)⟩

/-- C4: when the identifier string has no token that is non-empty after trimming (it is
missing, empty, whitespace-only, or made of empty tokens), `handleGetProductsByIds` ends
by writing the 400 error "no valid product IDs provided"; everything it does is a write of
a 400 error, so the catalog store is never called. -/
theorem C4_no_identifiers (store : List Int → Except StoreErr (List Product))
    (vars : Option GoString) (hempty : tokens (vars.getD []) = []) :
    (handleGetProductsByIds store vars).getLast? =
        some (.writeError StatusBadRequest .noValidProductIDs) ∧
      (∀ e ∈ handleGetProductsByIds store vars, ∃ err, e = .writeError StatusBadRequest err) ∧
      storeCalls (handleGetProductsByIds store vars) = [] := by
  have hloop := idsLoop_nil_of_tokens (Split (vars.getD [])) [] [] hempty
  have hrest : handleGetProductsByIdsRest store (vars.getD []) =
      [.writeError StatusBadRequest .noValidProductIDs] := by
    unfold handleGetProductsByIdsRest
    simp [hloop]
  unfold handleGetProductsByIds
  simp only [hrest]
  split
  · refine ⟨by simp, ?_, by simp [storeCalls]⟩
    intro e he
    simp only [List.cons_append, List.nil_append, List.mem_cons, List.mem_singleton,
      List.not_mem_nil, or_false] at he
    rcases he with he | he
    · exact ⟨_, he⟩
    · exact ⟨_, he⟩
  · refine ⟨by simp, ?_, by simp [storeCalls]⟩
    intro e he
    simp only [List.nil_append, List.mem_singleton] at he
    exact ⟨_, he⟩

/-- C4 at the input " , ," of the claim. -/
theorem C4_no_identifiers_witness :
    tokens ((some " , ,".toList).getD []) = [] ∧
    (handleGetProductsByIds (Store.GetProductsByID exampleDB) (some " , ,".toList)).getLast? =
        some (.writeError StatusBadRequest .noValidProductIDs) ∧
      (∀ e ∈ handleGetProductsByIds (Store.GetProductsByID exampleDB) (some " , ,".toList),
        ∃ err, e = .writeError StatusBadRequest err) ∧
      storeCalls (handleGetProductsByIds (Store.GetProductsByID exampleDB)
        (some " , ,".toList)) = [] :=
  ⟨by decide,
   C4_no_identifiers (Store.GetProductsByID exampleDB) (some " , ,".toList) (by decide)⟩

/-- C9: on the whitespace-only identifier string " " (and likewise on a missing variable)
`handleGetProductsByIds` writes two responses, "missing products IDs" and then
"no valid product IDs provided", whatever the store does: the first check lacks the
`return` that the same check has in `HandleUpdateProduct` and `HandleDeleteProduct`. -/
theorem C9_two_responses_on_blank (store : List Int → Except StoreErr (List Product)) :
    handleGetProductsByIds store (some " ".toList) =
        [.writeError StatusBadRequest .missingProductsIDs,
         .writeError StatusBadRequest .noValidProductIDs] ∧
      ((handleGetProductsByIds store (some " ".toList)).filter Event.isResponse).length = 2 ∧
      handleGetProductsByIds store none =
        [.writeError StatusBadRequest .missingProductsIDs,
         .writeError StatusBadRequest .noValidProductIDs] := by
  refine ⟨?_, ?_, ?_⟩
  · rfl
  · rfl
  · rfl

theorem GetProductsByID_reverse (db : DB) (ids : List Int) :
    Store.GetProductsByID db ids.reverse = Store.GetProductsByID db ids := by
  have hc : ∀ x : Int, ids.reverse.contains x = ids.contains x := by
    intro x
    by_cases hx : x ∈ ids
    · have h1 : ids.contains x = true := by simpa using hx
      have h2 : ids.reverse.contains x = true := by simpa using hx
      rw [h1, h2]
    · have h1 : ids.contains x = false := by simpa using hx
      have h2 : ids.reverse.contains x = false := by simpa using hx
      rw [h1, h2]
  unfold Store.GetProductsByID DB.queryByIDs
  simp only [List.length_reverse, hc]

/-- C2: with the products 1 and 2 stored in that order, the request for "2,1" passes
`[2, 1]` to `Store.GetProductsByID`, whose `IN` query has no `ORDER BY`, and the response
lists product 1 before product 2, although 2 precedes 1 in the requested list; for every
database the store returns the same list for a request and for the reversed request. -/
theorem C2_lookup_ignores_request_order :
    handleGetProductsByIds (Store.GetProductsByID exampleDB) (some "2,1".toList) =
        [.callGetProductsByID [2, 1],
         .writeProducts StatusOK [mkProduct 1 1000 10, mkProduct 2 2500 10]] ∧
      (∀ (db : DB) (ids : List Int),
        Store.GetProductsByID db ids.reverse = Store.GetProductsByID db ids) := by
  exact ⟨by decide, GetProductsByID_reverse⟩

/-! ## Product update: lemmas and claims -/

theorem lastRow_ID_zero (rows : List Product) :
    ∀ z : Product, z.ID = 0 → (∀ r ∈ rows, r.ID = 0) →
      (rows.foldl (fun _ row => row) z).ID = 0 := by
  induction rows with
  | nil => intro z hz _; exact hz
  | cons r rs ih =>
    intro z _ hall
    exact ih r (hall r (List.mem_cons_self _ _)) (fun x hx => hall x (List.mem_cons_of_mem _ hx))

theorem GetProductByID_zero (db : DB) : ∃ e, Store.GetProductByID db 0 = .error e := by
  unfold Store.GetProductByID DB.queryByID
  cases db.fault with
  | some msg => exact ⟨_, rfl⟩
  | none =>
    have h : ((db.products.filter (fun p => p.ID == 0)).foldl (fun _ row => row)
        Product.zero).ID = 0 := by
      apply lastRow_ID_zero _ _ rfl
      intro r hr
      have := (List.mem_filter.mp hr).2
      simpa using this
    exact ⟨.productNotFound, by simp [h]⟩

theorem UpdateProduct_zero (db : DB) (product : Product) :
    Store.UpdateProduct db { product with ID := 0 } = (.error (.productWithIdNotFound 0), db) := by
  obtain ⟨e, he⟩ := GetProductByID_zero db
  unfold Store.UpdateProduct
  simp only [he]

theorem startsWith_mem (pat : GoString) :
    ∀ s : GoString, startsWith pat s = true → ∀ c ∈ pat, c ∈ s := by
  induction pat with
  | nil => intro s _ c hc; exact absurd hc (List.not_mem_nil c)
  | cons p ps ih =>
    intro s h c hc
    cases s with
    | nil => simp [startsWith] at h
    | cons x xs =>
      simp only [startsWith, Bool.and_eq_true, beq_iff_eq] at h
      rcases List.mem_cons.mp hc with hc | hc
      · rw [hc, h.1]; exact List.mem_cons_self _ _
      · exact List.mem_cons_of_mem _ (ih xs h.2 c hc)

theorem Contains_mem (s pat : GoString) (h : Contains s pat = true) : ∀ c ∈ pat, c ∈ s := by
  induction s with
  | nil =>
    simp only [Contains] at h
    exact startsWith_mem pat [] h
  | cons x xs ih =>
    simp only [Contains, Bool.or_eq_true] at h
    rcases h with h | h
    · exact startsWith_mem pat _ h
    · intro c hc
      exact List.mem_cons_of_mem _ (ih h c hc)

theorem digitChar_ne_bang (d : Nat) : Nat.digitChar d ≠ '!' := by
  by_cases h : d < 16
  · interval_cases d <;> decide
  · have hstar : Nat.digitChar d = '*' := by
      unfold Nat.digitChar
      repeat rw [if_neg (by omega)]
    rw [hstar]
    decide

theorem toDigitsCore_no_bang (fuel : Nat) :
    ∀ (n : Nat) (ds : List Char), '!' ∉ ds → '!' ∉ Nat.toDigitsCore 10 fuel n ds := by
  induction fuel with
  | zero => intro n ds h; simpa [Nat.toDigitsCore] using h
  | succ fuel ih =>
    intro n ds h
    have hcons : '!' ∉ Nat.digitChar (n % 10) :: ds := by
      intro hm
      rcases List.mem_cons.mp hm with hm | hm
      · exact digitChar_ne_bang _ hm.symm
      · exact h hm
    simp only [Nat.toDigitsCore]
    split
    · exact hcons
    · exact ih _ _ hcons

theorem fmtInt_no_bang (i : Int) : '!' ∉ fmtInt i := by
  cases i with
  | ofNat n => exact toDigitsCore_no_bang _ _ _ (List.not_mem_nil _)
  | negSucc n =>
    intro hm
    rcases List.mem_cons.mp hm with hm | hm
    · exact absurd hm (by decide)
    · exact toDigitsCore_no_bang _ _ _ (List.not_mem_nil _) hm

theorem notFound_lacks_marker (id : Int) :
    Contains (StoreErr.productWithIdNotFound id).Error "not found!".toList = false := by
  cases h : Contains (StoreErr.productWithIdNotFound id).Error "not found!".toList with
  | false => rfl
  | true =>
    exfalso
    have hm := Contains_mem _ _ h '!' (by decide)
    simp only [StoreErr.Error, List.mem_append] at hm
    rcases hm with (hm | hm) | hm
    · exact absurd hm (by decide)
    · exact fmtInt_no_bang id hm
    · exact absurd hm (by decide)

/-- C8: on `PUT /product/1` with the test's payload, which carries no id, and a store that
holds product 1, `HandleUpdateProduct` passes the payload with id 0 to
`Store.UpdateProduct`, which reports "product with id 0 not found" (as it does for every
payload whose id is 0 and every database), and the handler answers 500 and leaves the
store unchanged; only the test's mock store, which ignores its argument, yields 200. -/
theorem C8_update_without_payload_id_fails :
    HandleUpdateProduct sqlStore (fun _ => none) exampleDB (some "1".toList)
        (.ok testUpdatePayload) =
      ([.callUpdateProduct testUpdatePayload,
        .writeError StatusInternalServerError (.store (.productWithIdNotFound 0))],
       exampleDB) ∧
    (∀ (db : DB) (product : Product),
      Store.UpdateProduct db { product with ID := 0 } =
        (.error (.productWithIdNotFound 0), db)) ∧
    HandleUpdateProduct mockProductStore (fun _ => none) () (some "1".toList)
        (.ok testUpdatePayload) =
      ([.callUpdateProduct testUpdatePayload, .callGetProductByID 1,
        .writeProduct StatusOK Product.zero], ()) := by
  refine ⟨by decide, UpdateProduct_zero, by decide⟩

/-- C10: on `PUT /product/999` with a payload for product 999, which the store does not
hold, `Store.UpdateProduct` returns "product with id 999 not found" and
`HandleUpdateProduct` answers 500, not 400: no not-found message of the store contains
the text "not found!" that the handler looks for. -/
theorem C10_not_found_answers_500 :
    (Store.UpdateProduct exampleDB { testUpdatePayload with ID := 999 }).1 =
      .error (.productWithIdNotFound 999) ∧
    HandleUpdateProduct sqlStore (fun _ => none) exampleDB (some "999".toList)
        (.ok { testUpdatePayload with ID := 999 }) =
      ([.callUpdateProduct { testUpdatePayload with ID := 999 },
        .writeError StatusInternalServerError (.store (.productWithIdNotFound 999))],
       exampleDB) ∧
    (∀ id : Int,
      Contains (StoreErr.productWithIdNotFound id).Error "not found!".toList = false) := by
  refine ⟨by decide, by decide, notFound_lacks_marker⟩

/-! ## Checkout: claims on the handler -/

/-- C5: `handleCheckout` calls `createOrder` exactly when payload parsing, validation,
`getCartItemsIDs` and `GetProductsByID` have all succeeded; when one of them fails it ends
with an error response, writes exactly one response, makes no `createOrder` call and
leaves the stores as they were. -/
theorem C5_no_write_before_steps_succeed {σ : Type} (deps : CheckoutDeps σ) (s : σ)
    (userID : Int) (body : Except Err CartCheckoutPayload) :
    ((∃ e ∈ (handleCheckout deps s userID body).1, e.isCreateOrder = true) ↔
        stepsSucceed deps s body) ∧
      (¬ stepsSucceed deps s body →
        (∃ status err, (handleCheckout deps s userID body).1.getLast? =
            some (.writeError status err)) ∧
        ((handleCheckout deps s userID body).1.filter CheckoutEvent.isResponse).length = 1 ∧
        (∀ e ∈ (handleCheckout deps s userID body).1, e.isCreateOrder = false) ∧
        (handleCheckout deps s userID body).2 = s) := by
  cases body with
  | error err =>
    have hno : ¬ stepsSucceed deps s (.error err) := by
      rintro ⟨cart, ids, products, h, _⟩
      cases h
    refine ⟨⟨?_, fun h => absurd h hno⟩, fun _ => ?_⟩
    · rintro ⟨e, he, hc⟩
      simp only [handleCheckout, List.mem_singleton] at he
      rw [he] at hc
      cases hc
    · simp [handleCheckout, CheckoutEvent.isResponse, CheckoutEvent.isCreateOrder]
  | ok cart =>
    cases hv : deps.validate cart with
    | some verr =>
      have hno : ¬ stepsSucceed deps s (.ok cart) := by
        rintro ⟨cart', ids, products, h, h2, _⟩
        cases h
        rw [hv] at h2
        cases h2
      refine ⟨⟨?_, fun h => absurd h hno⟩, fun _ => ?_⟩
      · rintro ⟨e, he, hc⟩
        simp only [handleCheckout, hv, List.mem_singleton] at he
        rw [he] at hc
        cases hc
      · simp [handleCheckout, hv, CheckoutEvent.isResponse, CheckoutEvent.isCreateOrder]
    | none =>
      cases hi : deps.getCartItemsIDs cart.Items with
      | error ierr =>
        have hno : ¬ stepsSucceed deps s (.ok cart) := by
          rintro ⟨cart', ids, products, h, _, h3, _⟩
          cases h
          rw [hi] at h3
          cases h3
        refine ⟨⟨?_, fun h => absurd h hno⟩, fun _ => ?_⟩
        · rintro ⟨e, he, hc⟩
          simp only [handleCheckout, hv, hi, List.mem_singleton] at he
          rw [he] at hc
          cases hc
        · simp [handleCheckout, hv, hi, CheckoutEvent.isResponse, CheckoutEvent.isCreateOrder]
      | ok ids =>
        cases hg : deps.GetProductsByID s ids with
        | error gerr =>
          have hno : ¬ stepsSucceed deps s (.ok cart) := by
            rintro ⟨cart', ids', products, h, _, h3, h4⟩
            cases h
            rw [hi] at h3
            cases h3
            rw [hg] at h4
            cases h4
          refine ⟨⟨?_, fun h => absurd h hno⟩, fun _ => ?_⟩
          · rintro ⟨e, he, hc⟩
            simp only [handleCheckout, hv, hi, hg, List.mem_cons, List.mem_singleton,
              List.not_mem_nil, or_false] at he
            rcases he with he | he <;> (rw [he] at hc; cases hc)
          · simp [handleCheckout, hv, hi, hg, CheckoutEvent.isResponse,
              CheckoutEvent.isCreateOrder]
        | ok products =>
          have hyes : stepsSucceed deps s (.ok cart) := ⟨cart, ids, products, rfl, hv, hi, hg⟩
          refine ⟨⟨fun _ => hyes, fun _ => ?_⟩, fun h => absurd hyes h⟩
          refine ⟨.callCreateOrder products cart.Items userID, ?_, rfl⟩
          simp only [handleCheckout, hv, hi, hg]
          rcases hco : deps.createOrder s products cart.Items userID with ⟨r, s'⟩
          cases r with
          | error e => simp
          | ok v => simp

/-- C5 on a request whose body does not parse: one 400 response, no `createOrder`. -/
theorem C5_no_write_before_steps_succeed_witness :
    ((∃ e ∈ (handleCheckout storageFailureDeps () 42 (.error (.parse "EOF".toList))).1,
          e.isCreateOrder = true) ↔
        stepsSucceed storageFailureDeps () (.error (.parse "EOF".toList))) ∧
      (¬ stepsSucceed storageFailureDeps () (.error (.parse "EOF".toList)) →
        (∃ status err, (handleCheckout storageFailureDeps () 42
            (.error (.parse "EOF".toList))).1.getLast? = some (.writeError status err)) ∧
        ((handleCheckout storageFailureDeps () 42
            (.error (.parse "EOF".toList))).1.filter CheckoutEvent.isResponse).length = 1 ∧
        (∀ e ∈ (handleCheckout storageFailureDeps () 42 (.error (.parse "EOF".toList))).1,
          e.isCreateOrder = false) ∧
        (handleCheckout storageFailureDeps () 42 (.error (.parse "EOF".toList))).2 = ()) :=
  C5_no_write_before_steps_succeed storageFailureDeps () 42 (.error (.parse "EOF".toList))

/-- C6 fails: when `createOrder` reports a storage failure, the response that
`handleCheckout` writes has status 400, which is not a 5xx status. -/
theorem C6_storage_failure_is_400 :
    (storageFailureDeps.createOrder () scenarioDB.products [⟨5, 2⟩, ⟨7, 1⟩] 42).1 =
      .error (.storageFailure "connection refused".toList) ∧
    (handleCheckout storageFailureDeps () 42 (.ok ⟨[⟨5, 2⟩, ⟨7, 1⟩]⟩)).1 =
      [.callGetProductsByID [5, 7],
       .callCreateOrder scenarioDB.products [⟨5, 2⟩, ⟨7, 1⟩] 42,
       .writeError StatusBadRequest (.storageFailure "connection refused".toList)] ∧
    ¬ (500 ≤ StatusBadRequest ∧ StatusBadRequest ≤ 599) := by
  refine ⟨by decide, by decide, by decide⟩

/-- C6 as amended: whenever the steps before it succeed and `createOrder` returns an
error (a storage failure included), `handleCheckout` calls `createOrder` once, writes one
response, with status 400 and that error, and nothing more. -/
theorem C6_createOrder_error_once_400 {σ : Type} (deps : CheckoutDeps σ) (s s' : σ)
    (userID : Int) (cart : CartCheckoutPayload) (ids : List Int) (products : List Product)
    (err : Err)
    (hvalid : deps.validate cart = none)
    (hids : deps.getCartItemsIDs cart.Items = .ok ids)
    (hget : deps.GetProductsByID s ids = .ok products)
    (hfail : deps.createOrder s products cart.Items userID = (.error err, s')) :
    handleCheckout deps s userID (.ok cart) =
      ([.callGetProductsByID ids, .callCreateOrder products cart.Items userID,
        .writeError StatusBadRequest err], s') := by
  simp only [handleCheckout, hvalid, hids, hget, hfail]

/-- C6 as amended, at a cart whose order the store fails to persist. -/
theorem C6_createOrder_error_once_400_witness :
    handleCheckout storageFailureDeps () 42 (.ok ⟨[⟨5, 2⟩, ⟨7, 1⟩]⟩) =
      ([.callGetProductsByID [5, 7],
        .callCreateOrder scenarioDB.products [⟨5, 2⟩, ⟨7, 1⟩] 42,
        .writeError StatusBadRequest (.storageFailure "connection refused".toList)], ()) :=
  C6_createOrder_error_once_400 storageFailureDeps () () 42 ⟨[⟨5, 2⟩, ⟨7, 1⟩]⟩ [5, 7]
    scenarioDB.products (.storageFailure "connection refused".toList)
    (by decide) (by decide) (by decide) (by decide)

/-! ## Checkout: the total price -/

theorem collectIDs_mem (items : List CartCheckoutItem) :
    ∀ ids : List Int,
      (∀ v ∈ ids, v ∈ items.foldl (fun ids item =>
          if ids.contains item.ProductID then ids else ids ++ [item.ProductID]) ids) ∧
      (∀ it ∈ items, it.ProductID ∈ items.foldl (fun ids item =>
          if ids.contains item.ProductID then ids else ids ++ [item.ProductID]) ids) := by
  induction items with
  | nil => intro ids; exact ⟨fun v hv => hv, fun it hit => absurd hit (List.not_mem_nil it)⟩
  | cons x xs ih =>
    intro ids
    simp only [List.foldl_cons]
    by_cases hx : x.ProductID ∈ ids
    · have hc : ids.contains x.ProductID = true := by simpa using hx
      simp only [hc, if_true]
      refine ⟨(ih ids).1, ?_⟩
      intro it hit
      rcases List.mem_cons.mp hit with h | h
      · rw [h]; exact (ih ids).1 _ hx
      · exact (ih ids).2 it h
    · have hc : ids.contains x.ProductID = false := by simpa using hx
      simp only [hc]
      refine ⟨fun v hv => (ih _).1 v (List.mem_append_left _ hv), ?_⟩
      intro it hit
      rcases List.mem_cons.mp hit with h | h
      · rw [h]; exact (ih _).1 _ (List.mem_append_right _ (List.mem_singleton_self _))
      · exact (ih _).2 it h

theorem appendRows_eq (rows : List Product) :
    ∀ init : List Product, rows.foldl (fun products p => products ++ [p]) init = init ++ rows := by
  induction rows with
  | nil => intro init; simp
  | cons r rs ih => intro init; simp [ih]

theorem GetProductsByID_healthy (db : DB) (ids : List Int) (hfault : db.fault = none)
    (hids : ids ≠ []) :
    Store.GetProductsByID db ids = .ok (db.products.filter (fun p => ids.contains p.ID)) := by
  have hlen : ¬ ids.length = 0 := fun h => hids (List.length_eq_zero.mp h)
  unfold Store.GetProductsByID DB.queryByIDs
  simp only [hlen, if_false, hfault, appendRows_eq, List.nil_append]

theorem mapFold_of_absent (products : List Product) (k : Int) :
    ∀ m : Int → Option Product, (∀ p ∈ products, p.ID ≠ k) →
      products.foldl (fun m p => fun k => if k = p.ID then some p else m k) m k = m k := by
  induction products with
  | nil => intro m _; rfl
  | cons r rs ih =>
    intro m h
    simp only [List.foldl_cons]
    rw [ih _ (fun p hp => h p (List.mem_cons_of_mem _ hp))]
    have hr : k ≠ r.ID := fun hk => h r (List.mem_cons_self _ _) hk.symm
    simp [hr]

theorem mapFold_of_present (products : List Product) (k : Int) :
    ∀ m : Int → Option Product, (∃ p ∈ products, p.ID = k) →
      ∃ p ∈ products, p.ID = k ∧
        products.foldl (fun m p => fun k => if k = p.ID then some p else m k) m k = some p := by
  induction products with
  | nil =>
    intro m h
    obtain ⟨p, hp, _⟩ := h
    exact absurd hp (List.not_mem_nil p)
  | cons r rs ih =>
    intro m h
    simp only [List.foldl_cons]
    by_cases hrs : ∃ p ∈ rs, p.ID = k
    · obtain ⟨p, hp, hk, hf⟩ := ih (fun k => if k = r.ID then some r else m k) hrs
      exact ⟨p, List.mem_cons_of_mem _ hp, hk, hf⟩
    · have habs : ∀ p ∈ rs, p.ID ≠ k := fun p hp hk => hrs ⟨p, hp, hk⟩
      obtain ⟨p, hp, hk⟩ := h
      have hpr : p = r := by
        rcases List.mem_cons.mp hp with h1 | h1
        · exact h1
        · exact absurd hk (habs p h1)
      subst hpr
      refine ⟨p, List.mem_cons_self _ _, hk, ?_⟩
      rw [mapFold_of_absent rs k _ habs]
      simp [hk]

theorem resolveLines_ok (m : Int → Option Product) (price : Int → Int)
    (items : List CartCheckoutItem)
    (h : ∀ it ∈ items, ∃ p, m it.ProductID = some p ∧ p.Price = price it.ProductID ∧
      it.Quantity ≤ p.Quantity) :
    resolveLines m items = .ok (items.map (fun it =>
      { ProductID := it.ProductID, UnitPrice := price it.ProductID, Quantity := it.Quantity })) := by
  induction items with
  | nil => rfl
  | cons x xs ih =>
    obtain ⟨p, hm, hp, hq⟩ := h x (List.mem_cons_self _ _)
    have ih2 := ih (fun it hit => h it (List.mem_cons_of_mem _ hit))
    have hq2 : ¬ x.Quantity > p.Quantity := not_lt.mpr hq
    simp only [resolveLines, hm, hq2, if_false, ih2, hp, List.map_cons]

theorem totalFold_eq (lines : List ResolvedLine) :
    ∀ a : Int, lines.foldl (fun total l => total + l.UnitPrice * l.Quantity) a =
      a + (lines.map (fun l => l.UnitPrice * l.Quantity)).sum := by
  induction lines with
  | nil => intro a; simp
  | cons l ls ih =>
    intro a
    simp only [List.foldl_cons, ih, List.map_cons, List.sum_cons]
    ring

theorem specCreateOrder_ok {τ : Type} (orders : OrderStore τ) (db : DB) (t : τ)
    (products : List Product) (items : List CartCheckoutItem) (userID oid : Int)
    (lines : List ResolvedLine)
    (hlines : resolveLines (productsMap products) items = .ok lines)
    (hpersist : ∀ order, (orders.CreateOrder t order).1 = .ok oid) :
    ∃ t', specCreateOrder orders (db, t) products items userID =
      (.ok (oid, lines.foldl (fun total l => total + l.UnitPrice * l.Quantity) 0), (db, t')) := by
  unfold specCreateOrder assembleOrder
  simp only [hlines]
  have hp := hpersist
    ⟨userID, lines, lines.foldl (fun total l => total + l.UnitPrice * l.Quantity) 0⟩
  generalize orders.CreateOrder t
    ⟨userID, lines, lines.foldl (fun total l => total + l.UnitPrice * l.Quantity) 0⟩ = res at hp
  obtain ⟨r, t'⟩ := res
  simp only at hp
  subst hp
  exact ⟨t', rfl⟩

/-- C7: for a valid cart whose items all reference products of a healthy catalog that
are sufficiently stocked, `price` giving the unit price of each product identifier, and
an order store that persists the order under `oid`, checkout calls the catalog once and
`createOrder` once and answers 200 with `order_id = oid` and a `total_price` equal to the
integer sum over all line items, duplicates included, of unit price × quantity. -/
theorem C7_total_is_exact_sum {τ : Type} (orders : OrderStore τ) (db : DB) (t : τ)
    (userID oid : Int) (items : List CartCheckoutItem) (price : Int → Int)
    (hfault : db.fault = none)
    (hprice : ∀ p ∈ db.products, p.Price = price p.ID)
    (hvalid : specValidate ⟨items⟩ = none)
    (hstock : ∀ it ∈ items, (∃ p ∈ db.products, p.ID = it.ProductID) ∧
      ∀ p ∈ db.products, p.ID = it.ProductID → it.Quantity ≤ p.Quantity)
    (hpersist : ∀ order, (orders.CreateOrder t order).1 = .ok oid) :
    ∃ ids products t',
      handleCheckout (specDeps orders) (db, t) userID (.ok ⟨items⟩) =
        ([.callGetProductsByID ids, .callCreateOrder products items userID,
          .writeOrder StatusOK
            ((items.map (fun it => price it.ProductID * it.Quantity)).sum) oid],
         (db, t')) := by
  have hne : items ≠ [] := by
    intro h
    rw [h] at hvalid
    simp [specValidate] at hvalid
  obtain ⟨ids, hids⟩ : ∃ ids, specGetCartItemsIDs items = .ok ids := ⟨_, rfl⟩
  have hmem : ∀ it ∈ items, it.ProductID ∈ ids := by
    intro it hit
    have := (collectIDs_mem items []).2 it hit
    unfold specGetCartItemsIDs at hids
    injection hids with hids
    rw [← hids]
    exact this
  have hidsne : ids ≠ [] := by
    obtain ⟨x, hx⟩ := List.exists_mem_of_ne_nil items hne
    exact List.ne_nil_of_mem (hmem x hx)
  have hget := GetProductsByID_healthy db ids hfault hidsne
  have hlines := resolveLines_ok
    (productsMap (db.products.filter (fun p => ids.contains p.ID))) price items (by
      intro it hit
      obtain ⟨⟨p, hp, hk⟩, hq⟩ := hstock it hit
      have hin : ∃ p ∈ db.products.filter (fun p => ids.contains p.ID), p.ID = it.ProductID := by
        refine ⟨p, List.mem_filter.mpr ⟨hp, ?_⟩, hk⟩
        have := hmem it hit
        rw [← hk] at this
        simpa using this
      obtain ⟨p', hp', hk', hf⟩ := mapFold_of_present _ it.ProductID (fun _ => none) hin
      have hpd : p' ∈ db.products := (List.mem_filter.mp hp').1
      refine ⟨p', hf, ?_, hq p' hpd hk'⟩
      rw [hprice p' hpd, hk'])
  obtain ⟨t', hcreate⟩ := specCreateOrder_ok orders db t
    (db.products.filter (fun p => ids.contains p.ID)) items userID oid _ hlines hpersist
  rw [totalFold_eq, zero_add, List.map_map] at hcreate
  have hsum : (items.map ((fun l : ResolvedLine => l.UnitPrice * l.Quantity) ∘ (fun it =>
      { ProductID := it.ProductID, UnitPrice := price it.ProductID,
        Quantity := it.Quantity }))).sum =
      (items.map (fun it => price it.ProductID * it.Quantity)).sum := rfl
  rw [hsum] at hcreate
  refine ⟨ids, db.products.filter (fun p => ids.contains p.ID), t', ?_⟩
  simp only [handleCheckout, specDeps, hvalid, hids, hget, hcreate]

/-- C7 on the scenario of the specification: items (5, qty 2) and (7, qty 1) with unit
prices 1000 and 2500 give a total of 4500. -/
theorem C7_total_is_exact_sum_witness :
    ∃ ids products t',
      handleCheckout (specDeps listOrderStore) (scenarioDB, []) 42
          (.ok ⟨[⟨5, 2⟩, ⟨7, 1⟩]⟩) =
        ([.callGetProductsByID ids, .callCreateOrder products [⟨5, 2⟩, ⟨7, 1⟩] 42,
          .writeOrder StatusOK
            (([⟨5, 2⟩, ⟨7, 1⟩] : List CartCheckoutItem).map
              (fun it => (fun id => if id = 5 then 1000 else 2500) it.ProductID *
                it.Quantity)).sum 1],
         (scenarioDB, t')) :=
  C7_total_is_exact_sum listOrderStore scenarioDB [] 42 1 [⟨5, 2⟩, ⟨7, 1⟩]
    (fun id => if id = 5 then 1000 else 2500) rfl (by decide) (by decide) (by decide)
    (fun _ => rfl)

end EcomGo
